import Mathlib

/-!
Verification of the `prow/prstatus` dashboard backend against its
specification.  The Go source (`prow/prstatus/prstatus.go`) is embedded
shallowly: pure helpers become Lean functions, the HTTP handler becomes a
function from an environment of collaborator results to a record of the
effects it performs, and the paginated query loop becomes a fuel-indexed
recursion (`none` = fuel exhausted, modelling a loop that has not yet
terminated).
-/

namespace PrStatus

/-- Models Go `strings.HasPrefix pat` at the character-list level:
`leadsWith pat l` is true iff `pat` occurs at the start of `l`. -/
def leadsWith : List Char → List Char → Bool
  | [], _ => true
  | _ :: _, [] => false
  | a :: as, b :: bs => a == b && leadsWith as bs

/-- Helper for `strContains`: does `sub` occur contiguously in the list? -/
def occursIn (sub : List Char) : List Char → Bool
  | [] => leadsWith sub []
  | c :: cs => leadsWith sub (c :: cs) || occursIn sub cs

/-- Models Go `strings.Contains s sub` (substring occurrence). -/
def strContains (s sub : String) : Bool :=
  occursIn sub.toList s.toList

/-- Models Go `strings.Split` with a one-character separator, generalised to
a character predicate: `splitP p acc l` splits `l` at every character
satisfying `p`, keeping empty pieces, with `acc` the (reversed) pending
piece.  With `p := (· == ' ')` this is exactly `strings.Split(q, " ")`. -/
def splitP (p : Char → Bool) : List Char → List Char → List (List Char)
  | acc, [] => [acc.reverse]
  | acc, c :: cs => if p c then acc.reverse :: splitP p [] cs else splitP p (c :: acc) cs

/-- Models Go `strings.Join(tokens, sep)`. -/
def strJoin (sep : String) : List String → String
  | [] => ""
  | [a] => a
  | a :: b :: as => a ++ sep ++ strJoin sep (b :: as)

/-- The tail of a join: separator before every element.  Used to state
equations about `strJoin`. -/
def tailJoin (sep : String) : List String → String
  | [] => ""
  | a :: as => sep ++ a ++ tailJoin sep as

/-- The suffix of repo-scope tokens the query builder appends: one
space-separated `repo:"<id>"` token per configured repository, in order. -/
def repoTokens : List String → String
  | [] => ""
  | v :: vs => " repo:\"" ++ v ++ "\"" ++ repoTokens vs

/-- The dashboard agent's configuration relevant to query construction:
the configured repository allow-list (`da.repos` in the source). -/
structure DashboardAgent where
  repos : List String
deriving DecidableEq

/-- Embeds `(da *DashboardAgent) ConstructSearchQuery(login string) string`:
joins `is:pr`, `state:open`, `author:<login>` and one `repo:"<id>"` token
per configured repository with single spaces. -/
def DashboardAgent.ConstructSearchQuery (da : DashboardAgent) (login : String) : String :=
  strJoin " " (["is:pr", "state:open", "author:" ++ login] ++
    da.repos.map (fun r => "repo:\"" ++ r ++ "\""))

/-- Embeds `queryConstrainsRepos(q string) bool`: split `q` on the space
character (Go `strings.Split(q, " ")`) and test whether any token starts
with `org:` or `repo:`. -/
def queryConstrainsRepos (q : String) : Bool :=
  (splitP (fun c => c == ' ') [] q.toList).any
    (fun tkn => leadsWith "org:".toList tkn || leadsWith "repo:".toList tkn)

/-- Modelled from the spec's words (for comparison with
`queryConstrainsRepos`, which is embedded from the source): "tokenizes on
whitespace; returns true iff any token starts with `org:` or `repo:`".
Tokens are the maximal runs between whitespace characters. -/
def queryConstrainsReposWS (q : String) : Bool :=
  ((splitP Char.isWhitespace [] q.toList).filter (fun t => !t.isEmpty)).any
    (fun tkn => leadsWith "org:".toList tkn || leadsWith "repo:".toList tkn)

/-- Embeds lines 222–227 of the handler: the search query is the
caller-supplied `query` form value when form parsing succeeded and the
value is non-empty, and otherwise the constructed default query. -/
def chosenQuery (da : DashboardAgent) (login : String)
    (parseFormOk : Bool) (formQuery : String) : String :=
  if parseFormOk && formQuery != "" then formQuery
  else da.ConstructSearchQuery login

/-- Embeds lines 230–234 of the handler: if the query constrains neither an
org nor a repo, append one ` repo:"<id>"` token per configured repository
(the Go `for` loop with `query += fmt.Sprintf(" repo:\"%s\"", v)`). -/
def withScope (da : DashboardAgent) (query : String) : String :=
  if queryConstrainsRepos query then query
  else da.repos.foldl (fun q v => q ++ " repo:\"" ++ v ++ "\"") query

/-- The query string the handler finally passes to the paginator. -/
def effectiveQuery (da : DashboardAgent) (login : String)
    (parseFormOk : Bool) (formQuery : String) : String :=
  withScope da (chosenQuery da login parseFormOk formQuery)

/-- Embeds the `Label` projection (id + name). `githubql.ID` is opaque and
modelled as a string. -/
structure Label where
  id : String
  name : String
deriving DecidableEq, Repr

/-- Embeds the `PullRequest` projection returned by the search query
(number, merged flag, title, author login, base ref, head commit id,
repository coordinates, labels, milestone). -/
structure PullRequest where
  number : Int
  merged : Bool
  title : String
  authorLogin : String
  baseRefName : String
  baseRefPrefixStr : String
  headRefOID : String
  repositoryName : String
  repositoryNameWithOwner : String
  repositoryOwnerLogin : String
  labels : List Label
  milestoneID : String
  milestoneClosed : Bool
deriving DecidableEq, Repr

/-- Embeds one `searchQuery` GraphQL response: rate-limit cost/remaining,
page info (has-next-page, end cursor) and the page's pull requests. -/
structure SearchResp where
  rateLimitCost : Int
  rateLimitRemaining : Int
  hasNextPage : Bool
  endCursor : String
  nodes : List PullRequest
deriving DecidableEq, Repr

/-- The loop body of `QueryPullRequests` (lines 268–282), indexed by fuel
(`none` = the loop has not terminated within `fuel` iterations; the Go
loop is unbounded).  Each iteration queries the client at the current
cursor; on error it returns that error (the Go `return nil, err` — the
accumulated `prs` are discarded); on success it appends the page's nodes,
adds the page's cost, overwrites `remaining`, and either stops
(`hasNextPage` false) or continues from the page's end cursor.  The two
`Int`s in the result are the `totalCost` and `remaining` values the Go
code logs after the loop (its observability record). -/
def queryPRsGo (ghc : Option String → Except String SearchResp) :
    Nat → Option String → List PullRequest → Int → Int →
    Option (Except String (List PullRequest × Int × Int))
  | 0, _, _, _, _ => none
  | fuel + 1, cursor, prs, totalCost, _remaining =>
    match ghc cursor with
    | .error e => some (.error e)
    | .ok sq =>
      let prs2 := prs ++ sq.nodes
      let totalCost2 := totalCost + sq.rateLimitCost
      let remaining2 := sq.rateLimitRemaining
      if sq.hasNextPage then
        queryPRsGo ghc fuel (some sq.endCursor) prs2 totalCost2 remaining2
      else
        some (.ok (prs2, totalCost2, remaining2))

/-- Embeds `(da *DashboardAgent) QueryPullRequests`: run the pagination
loop from a nil cursor with empty accumulators. -/
def QueryPullRequests (ghc : Option String → Except String SearchResp)
    (fuel : Nat) : Option (Except String (List PullRequest × Int × Int)) :=
  queryPRsGo ghc fuel none [] 0 0

/-- A terminating run of the remote client: `PageChain ghc c ps` holds when
querying `ghc` starting at cursor `c` yields exactly the successful pages
`ps`, every page but the last reporting a next page and handing its end
cursor to the following request, and the last page reporting no next
page. -/
inductive PageChain (ghc : Option String → Except String SearchResp) :
    Option String → List SearchResp → Prop
  | last {c p} : ghc c = .ok p → p.hasNextPage = false → PageChain ghc c [p]
  | step {c p ps} : ghc c = .ok p → p.hasNextPage = true →
      PageChain ghc (some p.endCursor) ps → PageChain ghc c (p :: ps)

/-- A failing run of the remote client: the pages `ps` succeed in sequence
(each reporting a next page), and the request after them fails with
error `e`. -/
inductive FailsAfter (ghc : Option String → Except String SearchResp) :
    Option String → List SearchResp → String → Prop
  | here {c e} : ghc c = .error e → FailsAfter ghc c [] e
  | step {c p ps e} : ghc c = .ok p → p.hasNextPage = true →
      FailsAfter ghc (some p.endCursor) ps e → FailsAfter ghc c (p :: ps) e

/-- Concatenation of the pages' pull requests, in server-returned order. -/
def chainPRs : List SearchResp → List PullRequest
  | [] => []
  | p :: ps => p.nodes ++ chainPRs ps

/-- Sum of the pages' reported query costs. -/
def chainCost : List SearchResp → Int
  | [] => 0
  | p :: ps => p.rateLimitCost + chainCost ps

/-- The remaining quota reported by the last page (0 for no pages). -/
def lastRemaining : List SearchResp → Int
  | [] => 0
  | [p] => p.rateLimitRemaining
  | _ :: p :: ps => lastRemaining (p :: ps)

/-- An OAuth token as the handler sees it: the access-token string and the
result of `token.Valid()`. -/
structure Token where
  accessToken : String
  valid : Bool
deriving DecidableEq, Repr

/-- The session record (`sessions.Session`): the stored token (with the
type assertion's `ok`, modelled as `Option`), the saved login value, and
`session.Options.MaxAge`. -/
structure SessionState where
  token : Option Token
  login : Option String
  maxAge : Int
deriving DecidableEq, Repr

/-- An `http.Cookie` as the handler sets it.  `expiresOffsetHours` is the
`Expires` field relative to `time.Now()` in hours (−24 on invalidation,
720 = 30 days on success). -/
structure Cookie where
  name : String
  value : String
  path : String
  expiresOffsetHours : Int
  maxAge : Int
  secure : Bool
deriving DecidableEq, Repr

/-- The response envelope (`UserData`): logged-in flag and the user's open
pull requests. -/
structure UserData where
  login : Bool
  pullRequests : List PullRequest
deriving DecidableEq, Repr

/-- The collaborator results a single request can observe:
`getSession` = `CookieStore.Get`, `getUser` = `grc.GetUser("")` (the
validated login or the error string), `saveSession` = the result of
`session.Save` (at most one save executes per request), the form-parsing
outcome and `query` form value, the `var` URL parameter, the paginator
result as a function of the final query string, and `json.Marshal` as a
function of the payload. -/
structure HandlerEnv where
  getSession : Except String SessionState
  getUser : Except String String
  saveSession : Except String Unit
  parseFormOk : Bool
  formQuery : String
  varParam : String
  queryPRs : String → Except String (List PullRequest)
  marshal : UserData → Except String String

/-- The effects one request performs: `httpError` is the 500 message passed
to `http.Error` (if any), `cookies` the `http.SetCookie` calls in order,
`saves` the attempted `session.Save` calls with the session state at the
call, `userData` the payload reaching serialization (`none` on an early
error return), and `body` the bytes written to the response writer by the
serialization stage. -/
structure HandlerResult where
  httpError : Option String
  cookies : List Cookie
  saves : List SessionState
  userData : Option UserData
  body : String

/-- Embeds lines 243–254: marshal the payload and write the body, wrapped
as `var <name> = <json>;` when the `var` parameter is non-empty.  When
marshalling fails, Go logs the error and continues with a nil byte slice,
so the JSON part contributes no bytes. -/
def writeResponse (varParam : String) (marshaled : Except String String) : String :=
  let bytes := match marshaled with
    | .ok s => s
    | .error _ => ""
  if varParam != "" then "var " ++ varParam ++ " = " ++ bytes ++ ";"
  else bytes

/-- The identity cookie the handler expires on credential rejection
(lines 189–195): expiry 24 hours in the past, max-age −1, secure,
path `/`, no value. -/
def expiredLoginCookie : Cookie :=
  { name := "github_login", value := "", path := "/",
    expiresOffsetHours := -24, maxAge := -1, secure := true }

/-- The identity cookie the handler refreshes on success (lines 208–214):
the login as value, 30-day expiry, secure, path `/`. -/
def loginCookie (login : String) : Cookie :=
  { name := "github_login", value := login, path := "/",
    expiresOffsetHours := 720, maxAge := 0, secure := true }

/-- A normal completion: no HTTP error, the payload is serialized and
written. -/
def finishWith (env : HandlerEnv) (cookies : List Cookie)
    (saves : List SessionState) (data : UserData) : HandlerResult :=
  { httpError := none, cookies := cookies, saves := saves,
    userData := some data,
    body := writeResponse env.varParam (env.marshal data) }

/-- An early `serverError` return: HTTP 500 with the given action message,
no payload and no body written by the serialization stage. -/
def abortWith (msg : String) (cookies : List Cookie)
    (saves : List SessionState) : HandlerResult :=
  { httpError := some msg, cookies := cookies, saves := saves,
    userData := none, body := "" }

/-- Embeds the `HandlePrStatus` request handler (lines 154–256), as a
function from the collaborator results to the effects performed.  The
control flow mirrors the source: session lookup; if a valid token is
stored, validate it via `GetUser` — a failure containing `401` expires the
session record (max-age −1), saves it (aborting on a save failure before
the cookie is touched) and expires the identity cookie, any other failure
aborts; on a verified login, refresh the identity cookie, persist the
login (aborting on a save failure), run the (possibly overridden and
scope-extended) query, and serialize; every completion path marshals the
`UserData` and writes the body. -/
def HandlePrStatus (da : DashboardAgent) (env : HandlerEnv) : HandlerResult :=
  match env.getSession with
  | .error e => abortWith ("Error with getting git token session. " ++ e) [] []
  | .ok session =>
    match session.token with
    | none => finishWith env [] [] { login := false, pullRequests := [] }
    | some tok =>
      if tok.valid then
        match env.getUser with
        | .error err =>
          if strContains err "401" then
            let invalidated := { session with maxAge := -1 }
            match env.saveSession with
            | .error e2 =>
              abortWith ("Error with saving invalidated session " ++ e2) [] [invalidated]
            | .ok _ =>
              finishWith env [expiredLoginCookie] [invalidated]
                { login := false, pullRequests := [] }
          else abortWith ("Error with getting user login " ++ err) [] []
        | .ok login =>
          let saved := { session with login := some login }
          match env.saveSession with
          | .error e2 => abortWith ("Save oauth session " ++ e2) [loginCookie login] [saved]
          | .ok _ =>
            match env.queryPRs (effectiveQuery da login env.parseFormOk env.formQuery) with
            | .error e2 =>
              abortWith ("Error with querying user data. " ++ e2) [loginCookie login] [saved]
            | .ok prs =>
              finishWith env [loginCookie login] [saved]
                { login := true, pullRequests := prs }
      else finishWith env [] [] { login := false, pullRequests := [] }

/-- A concrete pull request used by evaluation witnesses. -/
def samplePR (n : Int) : PullRequest :=
  { number := n, merged := false, title := "a title", authorLogin := "alice",
    baseRefName := "master", baseRefPrefixStr := "refs/heads/",
    headRefOID := "deadbeef", repositoryName := "test-infra",
    repositoryNameWithOwner := "kubernetes/test-infra",
    repositoryOwnerLogin := "kubernetes",
    labels := [{ id := "l1", name := "lgtm" }],
    milestoneID := "m1", milestoneClosed := false }

/-- First concrete page: two pull requests, has a next page at cursor
`cursorA`. -/
def pageA : SearchResp :=
  { rateLimitCost := 1, rateLimitRemaining := 99, hasNextPage := true,
    endCursor := "cursorA", nodes := [samplePR 1, samplePR 2] }

/-- Second concrete page: one pull request, no next page. -/
def pageB : SearchResp :=
  { rateLimitCost := 2, rateLimitRemaining := 98, hasNextPage := false,
    endCursor := "", nodes := [samplePR 3] }

/-- A concrete remote client that serves `pageA` then `pageB`. -/
def ghcOK : Option String → Except String SearchResp
  | none => .ok pageA
  | some c => if c = "cursorA" then .ok pageB else .error "unexpected cursor"

/-- A concrete remote client that serves `pageA` and then fails. -/
def ghcFail : Option String → Except String SearchResp
  | none => .ok pageA
  | some _ => .error "transport error"

/-- A concrete agent configuration used by evaluation witnesses. -/
def daW : DashboardAgent := { repos := ["kubernetes/test-infra"] }

/-- A concrete stored session holding a valid token. -/
def sessW : SessionState :=
  { token := some { accessToken := "tok", valid := true }, login := none, maxAge := 2592000 }

/-- An environment whose credential the remote rejects (401) and whose
session save succeeds. -/
def envRejected : HandlerEnv :=
  { getSession := .ok sessW, getUser := .error "401 Unauthorized",
    saveSession := .ok (), parseFormOk := true, formQuery := "",
    varParam := "", queryPRs := fun _ => .ok [],
    marshal := fun _ => .ok "serializedUserData" }

/-- An environment whose identity validation fails transiently (no 401). -/
def envTransient : HandlerEnv :=
  { getSession := .ok sessW, getUser := .error "connection refused",
    saveSession := .ok (), parseFormOk := true, formQuery := "",
    varParam := "", queryPRs := fun _ => .ok [],
    marshal := fun _ => .ok "serializedUserData" }

/-- An environment with no stored credential. -/
def envNoToken : HandlerEnv :=
  { getSession := .ok { token := none, login := none, maxAge := 0 },
    getUser := .error "unused", saveSession := .ok (),
    parseFormOk := false, formQuery := "", varParam := "",
    queryPRs := fun _ => .ok [],
    marshal := fun _ => .ok "serializedUserData" }

/-- An environment with no stored credential, a `var=data` URL parameter
and a failing serializer. -/
def envMarshalFail : HandlerEnv :=
  { getSession := .ok { token := none, login := none, maxAge := 0 },
    getUser := .error "unused", saveSession := .ok (),
    parseFormOk := false, formQuery := "", varParam := "data",
    queryPRs := fun _ => .ok [],
    marshal := fun _ => .error "marshal failure" }

theorem str_chunk (a b c : String) (h : a ++ b = c) (X : String) :
    a ++ (b ++ X) = c ++ X := by
  rw [← String.append_assoc, h]

theorem strJoin_cons (sep a : String) (as : List String) :
    strJoin sep (a :: as) = a ++ tailJoin sep as := by
  induction as generalizing a with
  | nil => simp [strJoin, tailJoin]
  | cons b bs ih =>
    simp only [strJoin, tailJoin]
    rw [ih]
    simp [String.append_assoc, tailJoin]

theorem tailJoin_map_repo (repos : List String) :
    tailJoin " " (repos.map (fun r => "repo:\"" ++ r ++ "\"")) = repoTokens repos := by
  induction repos with
  | nil => rfl
  | cons v vs ih =>
    rw [List.map_cons]
    simp only [tailJoin, repoTokens]
    rw [ih]
    simp only [String.append_assoc]
    exact str_chunk " " "repo:\"" " repo:\"" (by decide) _

theorem csq_eq (da : DashboardAgent) (login : String) :
    da.ConstructSearchQuery login =
      "is:pr state:open author:" ++ login ++ repoTokens da.repos := by
  unfold DashboardAgent.ConstructSearchQuery
  rw [show (["is:pr", "state:open", "author:" ++ login] ++
        da.repos.map (fun r => "repo:\"" ++ r ++ "\"")) =
      "is:pr" :: "state:open" :: ("author:" ++ login) ::
        da.repos.map (fun r => "repo:\"" ++ r ++ "\"") from rfl]
  rw [strJoin_cons]
  simp only [tailJoin]
  rw [tailJoin_map_repo]
  simp only [String.append_assoc]
  rw [str_chunk "is:pr" " " "is:pr " (by decide),
    str_chunk "is:pr " "state:open" "is:pr state:open" (by decide),
    str_chunk "is:pr state:open" " " "is:pr state:open " (by decide),
    str_chunk "is:pr state:open " "author:" "is:pr state:open author:" (by decide)]

/-- Claim C1: `ConstructSearchQuery` returns exactly
`"is:pr state:open author:<login>"` followed by one ` repo:"<id>"` token
per configured repository, separated by single spaces and in the scope's
iteration order (`repoTokens`); with an empty scope it returns exactly the
base string.  The operation is a total pure function of its inputs, so it
is deterministic, has no side effects and no failure mode. -/
theorem constructSearchQuery_spec :
    (∀ (da : DashboardAgent) (login : String),
      da.ConstructSearchQuery login =
        "is:pr state:open author:" ++ login ++ repoTokens da.repos) ∧
    (∀ login : String,
      (DashboardAgent.mk []).ConstructSearchQuery login =
        "is:pr state:open author:" ++ login) := by
  refine ⟨csq_eq, fun login => ?_⟩
  rw [csq_eq]
  simp [repoTokens]

/-- Claim C2 counterexample: `queryConstrainsRepos` does not tokenize on
whitespace.  On `"x\norg:a"` (a newline separator) the source splits only
on the space character and sees the single token `x\norg:a`, returning
`false`, while tokenizing on whitespace yields the token `org:a` and the
spec's predicate returns `true`. -/
theorem queryConstrainsRepos_ws_cex :
    queryConstrainsRepos "x\norg:a" = false ∧
      queryConstrainsReposWS "x\norg:a" = true := by
  exact ⟨by decide, by decide⟩

/-- Claim C2 (amended): `queryConstrainsRepos` tokenizes the string on the
space character (Go `strings.Split(q, " ")`, not general whitespace) and
returns true iff some token starts with `org:` or `repo:`; in particular
it returns true for `"repo:\"a/b\" is:pr"` and false for
`"is:pr author:x"`.  It is a pure function, so it never mutates its
input. -/
theorem queryConstrainsRepos_spec :
    (∀ q : String, queryConstrainsRepos q = true ↔
      ∃ tkn ∈ splitP (fun c => c == ' ') [] q.toList,
        (leadsWith "org:".toList tkn || leadsWith "repo:".toList tkn) = true) ∧
    queryConstrainsRepos "repo:\"a/b\" is:pr" = true ∧
    queryConstrainsRepos "is:pr author:x" = false := by
  refine ⟨fun q => ?_, by decide, by decide⟩
  simp [queryConstrainsRepos, List.any_eq_true]

theorem queryConstrainsRepos_spec_witness :
    queryConstrainsRepos "org:x" = true :=
  (queryConstrainsRepos_spec.1 "org:x").2 ⟨"org:x".toList, by decide, by decide⟩

theorem splitP_append_sep (p : Char → Bool) (c : Char) (hc : p c = true)
    (xs : List Char) : ∀ (acc ys : List Char),
    splitP p acc (xs ++ c :: ys) = splitP p acc xs ++ splitP p [] ys := by
  induction xs with
  | nil => intro acc ys; simp [splitP, hc]
  | cons d ds ih =>
    intro acc ys
    by_cases hd : p d = true
    · simp [splitP, hd, ih]
    · simp only [Bool.not_eq_true] at hd
      simp [splitP, hd, ih]

theorem splitP_head (p : Char → Bool) (l : List Char) : ∀ acc : List Char,
    ∃ ts, splitP p acc l =
      (acc.reverse ++ l.takeWhile (fun ch => !(p ch))) :: ts := by
  induction l with
  | nil => intro acc; exact ⟨[], by simp [splitP]⟩
  | cons c cs ih =>
    intro acc
    by_cases hc : p c = true
    · exact ⟨splitP p [] cs, by simp [splitP, hc, List.takeWhile_cons]⟩
    · simp only [Bool.not_eq_true] at hc
      obtain ⟨ts, hts⟩ := ih (c :: acc)
      exact ⟨ts, by simp [splitP, hc, hts, List.takeWhile_cons, List.append_assoc]⟩

theorem constrains_append_repo (xs rest : List Char) :
    (splitP (fun c => c == ' ') []
        (xs ++ ' ' :: ('r' :: 'e' :: 'p' :: 'o' :: ':' :: '"' :: rest))).any
      (fun tkn => leadsWith "org:".toList tkn || leadsWith "repo:".toList tkn) = true := by
  rw [splitP_append_sep (fun c => c == ' ') ' ' (by decide) xs []]
  rw [List.any_append]
  obtain ⟨ts, hts⟩ :=
    splitP_head (fun c => c == ' ') ('r' :: 'e' :: 'p' :: 'o' :: ':' :: '"' :: rest) []
  rw [hts]
  simp only [List.any_append, List.any_cons, List.any_eq_true, Bool.or_eq_true,
    List.reverse_nil, List.nil_append, List.takeWhile_cons]
  exact Or.inr (Or.inl (Or.inr rfl))

theorem constrains_csq_cons (da : DashboardAgent) (login r : String)
    (rs : List String) (hrepos : da.repos = r :: rs) :
    queryConstrainsRepos (da.ConstructSearchQuery login) = true := by
  rw [csq_eq, hrepos]
  unfold queryConstrainsRepos
  have h1 : (" repo:\"" : String).data =
      ' ' :: 'r' :: 'e' :: 'p' :: 'o' :: ':' :: '"' :: [] := rfl
  have h2 : ("\"" : String).data = ['"'] := rfl
  have hsplit : ("is:pr state:open author:" ++ login ++ repoTokens (r :: rs)).toList =
      ("is:pr state:open author:" ++ login).data ++
        ' ' :: ('r' :: 'e' :: 'p' :: 'o' :: ':' :: '"' ::
          (r.data ++ '"' :: (repoTokens rs).data)) := by
    simp only [repoTokens, String.toList, String.data_append, h1, h2,
      List.append_assoc, List.cons_append, List.nil_append]
  rw [hsplit]
  exact constrains_append_repo _ _

/-- Claim C10: for a logged-in request the caller-supplied `query` form
value replaces the default constructed query exactly when form parsing
succeeded and the value is non-empty; otherwise (parameter absent/empty or
form parse failure) the default author-scoped query is used, and it
reaches the paginator unchanged — the scope-appending stage never alters
it (with a non-empty scope the default already contains a `repo:` token,
and with an empty scope there is nothing to append). -/
theorem query_override_selection (da : DashboardAgent) (login : String)
    (parseFormOk : Bool) (formQuery : String) :
    (parseFormOk = true → formQuery ≠ "" →
      chosenQuery da login parseFormOk formQuery = formQuery) ∧
    (parseFormOk = false ∨ formQuery = "" →
      chosenQuery da login parseFormOk formQuery = da.ConstructSearchQuery login ∧
      effectiveQuery da login parseFormOk formQuery = da.ConstructSearchQuery login) := by
  constructor
  · intro h1 h2
    simp [chosenQuery, h1, h2]
  · intro h
    have hch : chosenQuery da login parseFormOk formQuery =
        da.ConstructSearchQuery login := by
      rcases h with h | h <;> simp [chosenQuery, h]
    refine ⟨hch, ?_⟩
    unfold effectiveQuery
    rw [hch]
    unfold withScope
    rcases hr : da.repos with _ | ⟨r, rs⟩
    · cases hq : queryConstrainsRepos (da.ConstructSearchQuery login) <;>
        simp [hq, hr]
    · rw [constrains_csq_cons da login r rs hr]
      simp

theorem query_override_selection_witness :
    chosenQuery daW "alice" true "is:pr custom" = "is:pr custom" ∧
      effectiveQuery daW "alice" false "" = daW.ConstructSearchQuery "alice" :=
  ⟨(query_override_selection daW "alice" true "is:pr custom").1 rfl (by decide),
    ((query_override_selection daW "alice" false "").2 (Or.inl rfl)).2⟩

theorem pageChain_ne_nil {ghc : Option String → Except String SearchResp}
    {c : Option String} {ps : List SearchResp} (h : PageChain ghc c ps) :
    ps ≠ [] := by
  cases h <;> simp

theorem queryPRsGo_chain {ghc : Option String → Except String SearchResp}
    {c : Option String} {ps : List SearchResp} (h : PageChain ghc c ps) :
    ∀ fuel, ps.length ≤ fuel → ∀ acc cost rem,
    queryPRsGo ghc fuel c acc cost rem =
      some (.ok (acc ++ chainPRs ps, cost + chainCost ps, lastRemaining ps)) := by
  induction h with
  | last hok hlastpage =>
    intro fuel hf acc cost rem
    cases fuel with
    | zero => simp at hf
    | succ f =>
      simp only [queryPRsGo, hok, hlastpage]
      simp [chainPRs, chainCost, lastRemaining]
  | step hok hnext hch ih =>
    rename_i c' p ps'
    intro fuel hf acc cost rem
    cases fuel with
    | zero => simp at hf
    | succ f =>
      have hf' : ps'.length ≤ f := by simpa using hf
      simp only [queryPRsGo, hok, hnext, if_true]
      rw [ih f hf']
      rcases ps' with _ | ⟨q, t⟩
      · exact absurd rfl (pageChain_ne_nil hch)
      · simp [chainPRs, chainCost, lastRemaining, List.append_assoc, Int.add_assoc]

/-- Claim C3: for every terminating sequence of successful page responses
(`PageChain`: each page but the last reports a next page and hands its end
cursor to the following request, the last reports none), the paginator
returns the concatenation of every page's pull requests in server order
(`chainPRs`), and its observability record reports the sum of the per-page
costs (`chainCost`) and, for remaining quota, the last page's value only
(`lastRemaining`).  `fuel` bounds the shallow embedding of the unbounded
Go loop; any fuel at least the page count gives the same result. -/
theorem queryPullRequests_pages (ghc : Option String → Except String SearchResp)
    (ps : List SearchResp) (fuel : Nat) (h : PageChain ghc none ps)
    (hf : ps.length ≤ fuel) :
    QueryPullRequests ghc fuel =
      some (.ok (chainPRs ps, chainCost ps, lastRemaining ps)) := by
  have := queryPRsGo_chain h fuel hf [] 0 0
  simpa [QueryPullRequests] using this

theorem queryPullRequests_pages_witness :
    QueryPullRequests ghcOK 2 =
      some (.ok (chainPRs [pageA, pageB], chainCost [pageA, pageB],
        lastRemaining [pageA, pageB])) :=
  queryPullRequests_pages ghcOK [pageA, pageB] 2
    (PageChain.step rfl rfl (PageChain.last (by simp [ghcOK, pageA]) rfl))
    (by decide)

theorem queryPRsGo_fails {ghc : Option String → Except String SearchResp}
    {c : Option String} {ps : List SearchResp} {e : String}
    (h : FailsAfter ghc c ps e) :
    ∀ fuel, ps.length < fuel → ∀ acc cost rem,
    queryPRsGo ghc fuel c acc cost rem = some (.error e) := by
  induction h with
  | here hfail =>
    intro fuel hf acc cost rem
    cases fuel with
    | zero => simp at hf
    | succ f => simp [queryPRsGo, hfail]
  | step hok hnext hch ih =>
    rename_i c' p ps' e'
    intro fuel hf acc cost rem
    cases fuel with
    | zero => simp at hf
    | succ f =>
      have hf' : ps'.length < f := by simpa using hf
      simp only [queryPRsGo, hok, hnext, if_true]
      exact ih f hf' _ _ _

/-- Claim C4: if any page request fails (`FailsAfter`: a run of successful
pages followed by an error), the paginator aborts at that point and
returns exactly that error; the error return carries no result list (the
Go `return nil, err` — no accumulation from earlier pages leaks), and no
retry is attempted (the failing request is issued once). -/
theorem queryPullRequests_error (ghc : Option String → Except String SearchResp)
    (ps : List SearchResp) (e : String) (fuel : Nat)
    (h : FailsAfter ghc none ps e) (hf : ps.length < fuel) :
    QueryPullRequests ghc fuel = some (.error e) :=
  queryPRsGo_fails h fuel hf [] 0 0

theorem queryPullRequests_error_witness :
    QueryPullRequests ghcFail 2 = some (.error "transport error") :=
  queryPullRequests_error ghcFail [pageA] "transport error" 2
    (FailsAfter.step rfl rfl (FailsAfter.here rfl)) (by decide)

/-- Claim C5: when the stored credential is rejected (identity validation
fails with an error containing `401`), the handler saves the session record
with a negative max-age (expiring it) and expires the client-readable
identity cookie (expiry in the past, negative max-age); if persisting the
expired session fails it aborts with a server error before setting the
identity cookie; when the rejection path completes, the response is the
logged-out payload (`login = false`) with no HTTP error. -/
theorem handle_rejected (da : DashboardAgent) (env : HandlerEnv)
    (s : SessionState) (t : Token) (e : String)
    (hs : env.getSession = .ok s) (ht : s.token = some t) (hv : t.valid = true)
    (hu : env.getUser = .error e) (h401 : strContains e "401" = true) :
    (HandlePrStatus da env).saves = [{ s with maxAge := -1 }] ∧
    ({ s with maxAge := -1 } : SessionState).maxAge < 0 ∧
    (∀ e2, env.saveSession = .error e2 →
      (HandlePrStatus da env).httpError.isSome = true ∧
      (HandlePrStatus da env).cookies = []) ∧
    (env.saveSession = .ok () →
      (HandlePrStatus da env).cookies = [expiredLoginCookie] ∧
      expiredLoginCookie.maxAge < 0 ∧ expiredLoginCookie.expiresOffsetHours < 0 ∧
      (HandlePrStatus da env).httpError = none ∧
      (HandlePrStatus da env).userData = some { login := false, pullRequests := [] }) := by
  rcases hsv : env.saveSession with e2 | u
  · have hred : HandlePrStatus da env =
        abortWith ("Error with saving invalidated session " ++ e2) []
          [{ s with maxAge := -1 }] := by
      simp [HandlePrStatus, hs, ht, hv, hu, h401, hsv]
    refine ⟨by rw [hred]; rfl, by simp, ?_, ?_⟩
    · intro e3 _
      rw [hred]
      exact ⟨rfl, rfl⟩
    · intro hok
      simp at hok
  · have hred : HandlePrStatus da env =
        finishWith env [expiredLoginCookie] [{ s with maxAge := -1 }]
          { login := false, pullRequests := [] } := by
      simp [HandlePrStatus, hs, ht, hv, hu, h401, hsv]
    refine ⟨by rw [hred]; rfl, by simp, ?_, ?_⟩
    · intro e3 habs
      simp at habs
    · intro _
      rw [hred]
      exact ⟨rfl, by simp [expiredLoginCookie], by simp [expiredLoginCookie], rfl, rfl⟩

theorem handle_rejected_witness :
    (HandlePrStatus daW envRejected).saves = [{ sessW with maxAge := -1 }] ∧
    ({ sessW with maxAge := -1 } : SessionState).maxAge < 0 ∧
    (∀ e2, envRejected.saveSession = .error e2 →
      (HandlePrStatus daW envRejected).httpError.isSome = true ∧
      (HandlePrStatus daW envRejected).cookies = []) ∧
    (envRejected.saveSession = .ok () →
      (HandlePrStatus daW envRejected).cookies = [expiredLoginCookie] ∧
      expiredLoginCookie.maxAge < 0 ∧ expiredLoginCookie.expiresOffsetHours < 0 ∧
      (HandlePrStatus daW envRejected).httpError = none ∧
      (HandlePrStatus daW envRejected).userData =
        some { login := false, pullRequests := [] }) :=
  handle_rejected daW envRejected sessW { accessToken := "tok", valid := true }
    "401 Unauthorized" rfl rfl rfl rfl (by decide)

/-- Claim C6: a failed identity validation is classified as rejected
exactly when the error signals an authorization failure — modelled, as the
source detects it, by the error text containing `401`; any other failure
is a transient error that aborts the whole request with a server error and
leaves session and cookie state untouched (no save attempted, no cookie
set, no payload); only the rejected case triggers session invalidation. -/
theorem handle_transient_vs_rejected (da : DashboardAgent) (env : HandlerEnv)
    (s : SessionState) (t : Token) (e : String)
    (hs : env.getSession = .ok s) (ht : s.token = some t) (hv : t.valid = true)
    (hu : env.getUser = .error e) :
    (strContains e "401" = false →
      (HandlePrStatus da env).httpError.isSome = true ∧
      (HandlePrStatus da env).cookies = [] ∧
      (HandlePrStatus da env).saves = [] ∧
      (HandlePrStatus da env).userData = none) ∧
    (strContains e "401" = true →
      (HandlePrStatus da env).saves = [{ s with maxAge := -1 }]) := by
  constructor
  · intro h401
    have hred : HandlePrStatus da env =
        abortWith ("Error with getting user login " ++ e) [] [] := by
      simp [HandlePrStatus, hs, ht, hv, hu, h401]
    rw [hred]
    exact ⟨rfl, rfl, rfl, rfl⟩
  · intro h401
    rcases hsv : env.saveSession with e2 | u
    · have hred : HandlePrStatus da env =
          abortWith ("Error with saving invalidated session " ++ e2) []
            [{ s with maxAge := -1 }] := by
        simp [HandlePrStatus, hs, ht, hv, hu, h401, hsv]
      rw [hred]
      rfl
    · have hred : HandlePrStatus da env =
          finishWith env [expiredLoginCookie] [{ s with maxAge := -1 }]
            { login := false, pullRequests := [] } := by
        simp [HandlePrStatus, hs, ht, hv, hu, h401, hsv]
      rw [hred]
      rfl

theorem handle_transient_vs_rejected_witness :
    (HandlePrStatus daW envTransient).httpError.isSome = true ∧
    (HandlePrStatus daW envTransient).cookies = [] ∧
    (HandlePrStatus daW envTransient).saves = [] ∧
    (HandlePrStatus daW envTransient).userData = none :=
  (handle_transient_vs_rejected daW envTransient sessW
    { accessToken := "tok", valid := true } "connection refused"
    rfl rfl rfl rfl).1 (by decide)

theorem handle_body_eq (da : DashboardAgent) (env : HandlerEnv) :
    (HandlePrStatus da env).userData = none ∨
    ∃ d, (HandlePrStatus da env).userData = some d ∧
      (HandlePrStatus da env).body = writeResponse env.varParam (env.marshal d) := by
  unfold HandlePrStatus
  repeat' split
  all_goals simp [abortWith, finishWith]

/-- Claim C7: the response envelope satisfies the invariant that its
pull-request list is populated only when its login flag is true: whenever
the serialized `UserData` has `login = false`, its `pullRequests` list is
empty. -/
theorem handle_userdata_invariant (da : DashboardAgent) (env : HandlerEnv)
    (d : UserData) (h : (HandlePrStatus da env).userData = some d)
    (hl : d.login = false) : d.pullRequests = [] := by
  unfold HandlePrStatus at h
  repeat' split at h
  all_goals try simp [abortWith, finishWith] at h
  all_goals try subst h
  all_goals simp_all

theorem handle_userdata_invariant_witness :
    (({ login := false, pullRequests := [] } : UserData)).pullRequests = [] :=
  handle_userdata_invariant daW envNoToken
    { login := false, pullRequests := [] } rfl rfl

/-- Claim C8: whatever payload reaches serialization, the body written is
`writeResponse` of the `var` parameter and the marshalled payload; for a
successfully serialized payload `j`, a non-empty `var <name>` parameter
yields exactly `var <name> = <j>;` and an absent/empty `var` yields
exactly `j`. -/
theorem response_var_wrapping :
    (∀ (da : DashboardAgent) (env : HandlerEnv) (d : UserData),
      (HandlePrStatus da env).userData = some d →
      (HandlePrStatus da env).body = writeResponse env.varParam (env.marshal d)) ∧
    (∀ v j : String, v ≠ "" →
      writeResponse v (.ok j) = "var " ++ v ++ " = " ++ j ++ ";") ∧
    (∀ j : String, writeResponse "" (.ok j) = j) := by
  refine ⟨?_, ?_, ?_⟩
  · intro da env d h
    rcases handle_body_eq da env with h0 | ⟨d', hd', hb⟩
    · rw [h0] at h
      simp at h
    · rw [hd'] at h
      injection h with h
      rw [← h]
      exact hb
  · intro v j hv
    simp [writeResponse, hv]
  · intro j
    rfl

theorem response_var_wrapping_witness :
    writeResponse "data" (.ok "payload") = "var " ++ "data" ++ " = " ++ "payload" ++ ";" :=
  response_var_wrapping.2.1 "data" "payload" (by decide)

/-- Claim C9 counterexample: when serialization fails and the `var`
parameter is set, the handler does write response body bytes.  With a
failing marshaller and `var=data`, Go still executes
`fmt.Fprintf(w, "var %s = ", v)` and `io.WriteString(w, ";")` around the
nil byte slice, producing the body `var data = ;` — not an empty body as
the claim states. -/
theorem marshal_error_writes_bytes_cex :
    envMarshalFail.marshal { login := false, pullRequests := [] } =
      .error "marshal failure" ∧
    (HandlePrStatus daW envMarshalFail).body = "var data = ;" ∧
    (HandlePrStatus daW envMarshalFail).body ≠ "" := by
  refine ⟨rfl, by decide, by decide⟩

/-- Claim C9 (amended): when JSON serialization of the payload fails, the
error is only logged; the handler writes no response body bytes when the
`var` parameter is absent or empty, but when `var` is non-empty it still
writes the wrapper `var <name> = ;` around the empty (nil) payload. -/
theorem writeResponse_marshal_error (v e : String) :
    (v = "" → writeResponse v (.error e) = "") ∧
    (v ≠ "" → writeResponse v (.error e) = "var " ++ v ++ " = " ++ ";") ∧
    (∀ (da : DashboardAgent) (env : HandlerEnv) (d : UserData),
      (HandlePrStatus da env).userData = some d → env.marshal d = .error e →
      (HandlePrStatus da env).body = writeResponse env.varParam (.error e)) := by
  refine ⟨?_, ?_, ?_⟩
  · intro hv
    subst hv
    rfl
  · intro hv
    simp [writeResponse, hv]
  · intro da env d h hm
    rcases handle_body_eq da env with h0 | ⟨d', hd', hb⟩
    · rw [h0] at h
      simp at h
    · rw [hd'] at h
      injection h with h
      rw [h] at hb
      rw [hb, hm]

theorem writeResponse_marshal_error_witness :
    writeResponse "data" (.error "boom") = "var " ++ "data" ++ " = " ++ ";" :=
  (writeResponse_marshal_error "data" "boom").2.1 (by decide)

end PrStatus
